import Mathlib

/-!
# Verification of the nri_news extraction-and-validation pipeline

This development embeds the core of the `nri_news` backend: the validated
domain model (Source, Citation, LLMUsage, Article, Metadata, Bulletin,
BulletinWrapper), the content extractor, the normalizer/formatter façade,
and the exponential-backoff retry utility.

The retry utility is translated directly from
`src/backend/src/utils/retry_logic.py`.  The domain model, extractor and
formatter are modelled from the design specification (the corresponding
`src/models/*.py` and `src/fetchers/json_formatter.py` files are not in
the source tree; only their test suites are), faithful to the spec's
stated validation rules and fallback policies.  Float-valued quantities
(backoff delays, processing time) are embedded as rationals.
-/

set_option maxRecDepth 8000

namespace NriNews

instance {ε α : Type} [DecidableEq ε] [DecidableEq α] :
    DecidableEq (Except ε α) := fun a b =>
  match a, b with
  | .ok x, .ok y => decidable_of_iff (x = y) (by simp)
  | .error x, .error y => decidable_of_iff (x = y) (by simp)
  | .ok _, .error _ => .isFalse (by simp)
  | .error _, .ok _ => .isFalse (by simp)

/-! ## Basic string helpers -/

/-- Count whitespace-delimited words of a character list.  The boolean flag
records whether the scanner currently stands inside a word. -/
def countWordsAux : Bool → List Char → Nat
  | _, [] => 0
  | inWord, c :: cs =>
    if c.isWhitespace then countWordsAux false cs
    else (if inWord then 0 else 1) + countWordsAux true cs

/-- Whitespace-delimited word count of a string (spec §3: "word count" is
whitespace-delimited tokens). -/
def wordCount (s : String) : Nat := countWordsAux false s.data

/-- Character length of a string (spec §3: string lengths are measured in
characters). -/
def strLen (s : String) : Nat := s.data.length

/-- Does `p` occur as a leading segment of `l`? -/
def leadsWith : List Char → List Char → Bool
  | [], _ => true
  | _ :: _, [] => false
  | p :: ps, c :: cs => p == c && leadsWith ps cs

/-- Does `pat` occur as a contiguous substring of `s`? -/
def listContainsSub (pat : List Char) : List Char → Bool
  | [] => pat.isEmpty
  | c :: cs => leadsWith pat (c :: cs) || listContainsSub pat cs

/-- Does `pat` occur as a contiguous substring of `s`? -/
def strContainsSub (s pat : String) : Bool := listContainsSub pat.data s.data

/-- Strip leading and trailing whitespace from a string. -/
def trimStr (s : String) : String :=
  String.mk (((s.data.dropWhile Char.isWhitespace).reverse.dropWhile
      Char.isWhitespace).reverse)

/-- Render a natural number padded with leading zeros to width three,
mirroring Python's `f"{i:03d}"` (numbers wider than three digits are not
truncated). -/
def pad3 (n : Nat) : String :=
  String.mk (List.replicate (3 - (Nat.repr n).data.length) '0') ++ Nat.repr n

/-! ## Domain model enumerations

Modelled from the spec §3: Category, Region and Period are closed
enumerations; the category values observed in the test suite are
politics, economy, technology, sports, health and world. -/

inductive Category
  | politics | economy | technology | sports | health | world
  deriving DecidableEq, Repr

/-- The serialized (lowercase) value of a category, as it appears in raw
input and in `categories_distribution` keys. -/
def Category.str : Category → String
  | .politics => "politics"
  | .economy => "economy"
  | .technology => "technology"
  | .sports => "sports"
  | .health => "health"
  | .world => "world"

/-- Case-sensitive lookup table from raw category strings to the closed
enumeration (spec §4.3 step 2 and §9: explicit lookup table plus a default
case). -/
def Category.fromStr : String → Option Category
  | "politics" => some .politics
  | "economy" => some .economy
  | "technology" => some .technology
  | "sports" => some .sports
  | "health" => some .health
  | "world" => some .world
  | _ => none

inductive Region
  | usa
  deriving DecidableEq, Repr

def Region.str : Region → String
  | .usa => "usa"

inductive Period
  | morning | evening
  deriving DecidableEq, Repr

def Period.str : Period → String
  | .morning => "morning"
  | .evening => "evening"

/-! ## Validation errors

Modelled from the spec §4.1/§7: validation is all-or-nothing, errors are
enumerable and each violation names the offending field and the rule. -/

structure ValidationIssue where
  field : String
  rule : String
  deriving DecidableEq, Repr

/-- Accumulate issue lists of several independent checks (spec §9:
validation modelled as a collector of typed violations). -/
def checkAll (issues : List (List ValidationIssue)) : List ValidationIssue :=
  issues.foldr (· ++ ·) []

/-! ## Domain model records with smart constructors

Each record's `validate` function either yields a fully valid instance or
fails with the complete list of violations (spec §4.1).  Timestamp parsing
of `Source.published_at` and the `article_id`/date regex checks beyond
what the claims exercise are kept as close to the spec as the embedding
needs; see the individual doc comments. -/

/-- The markdown fence marker. -/
def fenceMarker : String := "```"

/-- The https URL scheme. -/
def httpsScheme : String := "https://"

/-- The http URL scheme. -/
def httpScheme : String := "http://"

/-- The fixed default model name of `Metadata.llm_model` (spec §3). -/
def defaultModelName : String := "sonar"

/-- Deterministic fallback source name used when the raw article carries
no source fields (spec §4.3 step 4; the concrete constant is a modelling
choice, the spec only demands determinism). -/
def defaultSourceName : String := "Unknown Source"

/-- Deterministic fallback source URL used when the raw article carries
no source fields (spec §4.3 step 4; the concrete constant is a modelling
choice, the spec only demands determinism). -/
def defaultSourceUrl : String := "https://example.com"

/-- The fixed title of the synthesized default citation (spec §4.3
step 3). -/
def originalSourceTitle : String := "Original Source"

/-- The bulletin version string. -/
def versionString : String := "1.0"

/-- Well-formedness of a URL, modelled from the spec §3 ("well-formed
HTTPS/HTTP URL") as an http(s) scheme check. -/
def urlOk (u : String) : Bool :=
  leadsWith httpsScheme.data u.data || leadsWith httpScheme.data u.data

/-- Run a validator: yield the instance when no rule is violated, fail
with the complete violation list otherwise (spec §4.1: all-or-nothing
construction). -/
def runChecks {α : Type} (issues : List ValidationIssue) (a : α) :
    Except (List ValidationIssue) α :=
  match issues with
  | [] => .ok a
  | is => .error is

/-- Modelled from the spec §3: `name` non-empty, `url` a well-formed
HTTP(S) URL, `published_at` optional (its timestamp parsing is not
modelled; the field is carried as an optional opaque string). -/
structure Source where
  name : String
  url : String
  published_at : Option String
  deriving DecidableEq, Repr

def Source.issues (name url : String) : List ValidationIssue :=
  checkAll
    [ if name = "" then [⟨"name", "non-empty"⟩] else [],
      if urlOk url then [] else [⟨"url", "well-formed http(s) URL"⟩] ]

def Source.validate (name url : String) (published_at : Option String) :
    Except (List ValidationIssue) Source :=
  runChecks (Source.issues name url) ⟨name, url, published_at⟩

/-- Modelled from the spec §3: `title` 1–150 chars, `url` well-formed,
`publisher` 1–100 chars; immutable. -/
structure Citation where
  title : String
  url : String
  publisher : String
  deriving DecidableEq, Repr

def Citation.issues (title url publisher : String) : List ValidationIssue :=
  checkAll
    [ if 1 ≤ strLen title ∧ strLen title ≤ 150 then []
      else [⟨"title", "length 1-150"⟩],
      if urlOk url then [] else [⟨"url", "well-formed http(s) URL"⟩],
      if 1 ≤ strLen publisher ∧ strLen publisher ≤ 100 then []
      else [⟨"publisher", "length 1-100"⟩] ]

def Citation.validate (title url publisher : String) :
    Except (List ValidationIssue) Citation :=
  runChecks (Citation.issues title url publisher) ⟨title, url, publisher⟩

/-- Modelled from the spec §3: non-negative integer token counts with the
cross-field invariant `total_tokens == prompt_tokens + completion_tokens`;
a violation is a validation error on `total_tokens`, never a silent
correction. -/
structure LLMUsage where
  prompt_tokens : Int
  completion_tokens : Int
  total_tokens : Int
  deriving DecidableEq, Repr

def LLMUsage.issues (p c t : Int) : List ValidationIssue :=
  checkAll
    [ if 0 ≤ p then [] else [⟨"prompt_tokens", "non-negative"⟩],
      if 0 ≤ c then [] else [⟨"completion_tokens", "non-negative"⟩],
      if 0 ≤ t then [] else [⟨"total_tokens", "non-negative"⟩],
      if t = p + c then []
      else [⟨"total_tokens", "must equal prompt_tokens + completion_tokens"⟩] ]

def LLMUsage.validate (p c t : Int) : Except (List ValidationIssue) LLMUsage :=
  runChecks (LLMUsage.issues p c t) ⟨p, c, t⟩

/-- Modelled from the spec §3: bounded title/summary (character length and
word count enforced independently), one category, a source, 1–3 citations
and a derived identifier.  The `article_id` pattern check is subsumed by
the normalizer's derivation (§4.3 step 1) and is not re-checked here. -/
structure Article where
  title : String
  summary : String
  category : Category
  source : Source
  citations : List Citation
  article_id : String
  deriving DecidableEq, Repr

def Article.issues (title summary : String) (citations : List Citation) :
    List ValidationIssue :=
  checkAll
    [ if 10 ≤ strLen title ∧ strLen title ≤ 120 then []
      else [⟨"title", "length 10-120"⟩],
      if 40 ≤ strLen summary ∧ strLen summary ≤ 500 then []
      else [⟨"summary", "length 40-500"⟩],
      if 20 ≤ wordCount summary ∧ wordCount summary ≤ 100 then []
      else [⟨"summary", "word count 20-100"⟩],
      if 1 ≤ citations.length ∧ citations.length ≤ 3 then []
      else [⟨"citations", "count 1-3"⟩] ]

def Article.validate (title summary : String) (category : Category)
    (source : Source) (citations : List Citation) (article_id : String) :
    Except (List ValidationIssue) Article :=
  runChecks (Article.issues title summary citations)
    ⟨title, summary, category, source, citations, article_id⟩

/-- Modelled from the spec §3: `article_count` 1–10,
`categories_distribution` keyed by category value strings, an `llm_usage`
record, non-negative `processing_time_seconds`, `llm_model` defaulting to
the fixed model name "sonar", optional `workflow_run_id`. -/
structure Metadata where
  article_count : Nat
  categories_distribution : List (String × Nat)
  llm_usage : LLMUsage
  processing_time_seconds : ℚ
  llm_model : String
  workflow_run_id : Option String
  deriving DecidableEq, Repr

def Metadata.issues (article_count : Nat) (processing_time_seconds : ℚ) :
    List ValidationIssue :=
  checkAll
    [ if 1 ≤ article_count ∧ article_count ≤ 10 then []
      else [⟨"article_count", "range 1-10"⟩],
      if 0 ≤ processing_time_seconds then []
      else [⟨"processing_time_seconds", "non-negative"⟩] ]

def Metadata.validate (article_count : Nat)
    (categories_distribution : List (String × Nat)) (llm_usage : LLMUsage)
    (processing_time_seconds : ℚ) (llm_model : Option String)
    (workflow_run_id : Option String) :
    Except (List ValidationIssue) Metadata :=
  runChecks (Metadata.issues article_count processing_time_seconds)
    ⟨article_count, categories_distribution, llm_usage,
      processing_time_seconds, llm_model.getD defaultModelName,
      workflow_run_id⟩

/-- Is the string a `YYYY-MM-DD` shaped date (spec §3: pattern only, not
calendar-validated)? -/
def dateShaped (s : String) : Bool :=
  match s.data with
  | [y1, y2, y3, y4, '-', m1, m2, '-', d1, d2] =>
    y1.isDigit && y2.isDigit && y3.isDigit && y4.isDigit &&
    m1.isDigit && m2.isDigit && d1.isDigit && d2.isDigit
  | _ => false

/-- Modelled from the spec §3: a dated, regioned collection of 5–10
articles with pairwise-distinct `article_id` values and
`id == "{region}-{date}-{period}"` checked at construction. -/
structure Bulletin where
  id : String
  region : Region
  date : String
  period : Period
  generated_at : String
  version : String
  articles : List Article
  metadata : Metadata
  deriving DecidableEq, Repr

def mkBulletinId (region : Region) (date : String) (period : Period) : String :=
  region.str ++ "-" ++ date ++ "-" ++ period.str

def Bulletin.issues (id : String) (region : Region) (date : String)
    (period : Period) (articles : List Article) : List ValidationIssue :=
  checkAll
    [ if id = mkBulletinId region date period then []
      else [⟨"id", "must equal {region}-{date}-{period}"⟩],
      if dateShaped date then [] else [⟨"date", "YYYY-MM-DD"⟩],
      if 5 ≤ articles.length ∧ articles.length ≤ 10 then []
      else [⟨"articles", "count 5-10"⟩],
      if (articles.map Article.article_id).Nodup then []
      else [⟨"articles", "article_id values must be unique"⟩] ]

def Bulletin.validate (id : String) (region : Region) (date : String)
    (period : Period) (generated_at version : String)
    (articles : List Article) (metadata : Metadata) :
    Except (List ValidationIssue) Bulletin :=
  runChecks (Bulletin.issues id region date period articles)
    ⟨id, region, date, period, generated_at, version, articles, metadata⟩

/-- Modelled from the spec §3: a transport envelope holding exactly one
Bulletin. -/
structure BulletinWrapper where
  bulletin : Bulletin
  deriving DecidableEq, Repr

/-! ## Content extractor

Modelled from the spec §4.2: trims the input, fails with a distinct
"empty content" error on blank input, strips a single markdown fenced
block if present, then parses the remaining text as JSON and fails with a
"malformed JSON" error when parsing fails.  JSON parsing itself is an
external text-parsing primitive (Python's `json.loads`); it is embedded as
a parameter `parse` classifying the text into the two accepted top-level
shapes, any other shape, or a parse failure. -/

/-- A raw article-like mapping as produced by the extractor (upstream
contract §6: loosely-typed key/value data; absent `title`/`summary` map to
the empty string, the remaining fields stay optional). -/
structure RawArticle where
  title : String
  summary : String
  category : Option String
  source_name : Option String
  source_url : Option String
  deriving DecidableEq, Repr

/-- A raw citation mapping from the shared pool (upstream contract §6). -/
structure RawCitation where
  title : String
  url : String
  publisher : String
  deriving DecidableEq, Repr

/-- A raw token-usage mapping; fields are optional and default to zero
(spec §4.3 step 7). -/
structure RawUsage where
  prompt_tokens : Option Int
  completion_tokens : Option Int
  total_tokens : Option Int
  deriving DecidableEq, Repr

/-- The upstream response structure (spec §6). -/
structure ApiResponse where
  content : String
  citations : List RawCitation
  usage : RawUsage
  deriving DecidableEq, Repr

/-- Top-level JSON shape relevant to the extractor (spec §4.2): an array
of article mappings, an object with an `articles` key holding that array,
or any other shape. -/
inductive JsonShape
  | arr (articles : List RawArticle)
  | objWithArticles (articles : List RawArticle)
  | other
  deriving DecidableEq, Repr

inductive ExtractError
  | emptyContent
  | malformedJson
  deriving DecidableEq, Repr

/-- Drop characters up to and through the first "```" marker; `none` when
no marker occurs. -/
def dropThroughMarker : List Char → Option (List Char)
  | [] => none
  | c :: cs =>
    if leadsWith fenceMarker.data (c :: cs) then some (cs.drop 2)
    else dropThroughMarker cs

/-- Drop the remainder of the current line (the optional language tag on
the fence line). -/
def dropRestOfLine : List Char → List Char
  | [] => []
  | c :: cs => if c = '\n' then cs else dropRestOfLine cs

/-- Take characters up to the closing "```" marker; `none` when no closing
marker occurs. -/
def takeUntilMarker : List Char → Option (List Char)
  | [] => none
  | c :: cs =>
    if leadsWith fenceMarker.data (c :: cs) then some []
    else (takeUntilMarker cs).map (c :: ·)

/-- Modelled from the spec §4.2: strip a single markdown fenced block (a
fence line with optional language tag, a body, a closing fence) if
present; otherwise use the text verbatim. -/
def stripFence (s : String) : String :=
  match dropThroughMarker s.data with
  | none => s
  | some rest =>
    match takeUntilMarker (dropRestOfLine rest) with
    | none => s
    | some body => String.mk body

/-- Modelled from the spec §4.2: the content extractor.  Produces the raw
article sequence in source order; a non-array/non-`articles` top-level
shape yields zero articles. -/
def extractArticles (parse : String → Option JsonShape) (content : String) :
    Except ExtractError (List RawArticle) :=
  let t := trimStr content
  if t = "" then .error .emptyContent
  else
    match parse (stripFence t) with
    | none => .error .malformedJson
    | some (.arr articles) => .ok articles
    | some (.objWithArticles articles) => .ok articles
    | some .other => .ok []

/-! ## Normalizer

Modelled from the spec §4.3: derive identifiers, default malformed
categories, partition the shared citation pool, synthesize sources
deterministically, and propagate per-article validation failures. -/

/-- Spec §4.3 step 2 / §9: category lookup with silent fallback to the
fixed default category "world". -/
def normCategory (c : Option String) : Category :=
  (c.bind Category.fromStr).getD .world

/-- Spec §4.3 step 1: 1-based derived article identifier. -/
def mkArticleId (region : Region) (date : String) (period : Period)
    (i : Nat) : String :=
  mkBulletinId region date period ++ "-" ++ pad3 i

/-- The fixed default citation synthesized when the shared pool is empty
(spec §4.3 step 3): fixed title "Original Source", the article's own
source URL, the source's name as publisher. -/
def defaultCitationOf (src : Source) : Citation :=
  ⟨"Original Source", src.url, src.name⟩

/-- Portion size when partitioning the shared citation pool (spec §9: the
exact partition policy is underspecified; modelled as the deterministic,
order-preserving chunking `max 1 (pool / articles)` capped at 3). -/
def chunkSize (poolLen nArticles : Nat) : Nat :=
  min 3 (max 1 (poolLen / nArticles))

/-- The slice of the shared pool assigned to the article at 1-based
position `i`; `none` when the pool is empty or exhausted, in which case
the default citation is synthesized. -/
def assignRawCitations (pool : List RawCitation) (nArticles i : Nat) :
    Option (List RawCitation) :=
  match pool with
  | [] => none
  | _ :: _ =>
    let k := chunkSize pool.length nArticles
    match (pool.drop ((i - 1) * k)).take k with
    | [] => none
    | slice => some slice

/-- Collect a list of fallible computations, aggregating every violation
(spec §4.1: enumerable validation errors). -/
def collectE {α : Type} :
    List (Except (List ValidationIssue) α) →
    Except (List ValidationIssue) (List α)
  | [] => .ok []
  | x :: xs =>
    match x, collectE xs with
    | .ok a, .ok as => .ok (a :: as)
    | .ok _, .error es => .error es
    | .error e, .ok _ => .error e
    | .error e, .error es => .error (e ++ es)

/-- Spec §4.3 step 4: construct a Source from whatever source/url fields
are present on the raw article, or synthesize one deterministically from
fixed defaults when absent. -/
def mkSource (r : RawArticle) : Except (List ValidationIssue) Source :=
  Source.validate (r.source_name.getD defaultSourceName)
    (r.source_url.getD defaultSourceUrl) none

/-- Spec §4.3 step 3: citations for the article at 1-based position `i`,
from the shared pool when it supplies a non-empty slice, otherwise the
synthesized default citation. -/
def mkCitations (pool : List RawCitation) (nArticles i : Nat) (src : Source) :
    Except (List ValidationIssue) (List Citation) :=
  match assignRawCitations pool nArticles i with
  | none => (Citation.validate originalSourceTitle src.url src.name).map ([·])
  | some slice =>
    collectE (slice.map fun rc => Citation.validate rc.title rc.url rc.publisher)

/-- Spec §4.3 steps 1–5: normalize one raw article at 1-based position
`i` into a valid Article; construction failures propagate. -/
def normalizeArticle (region : Region) (date : String) (period : Period)
    (pool : List RawCitation) (nArticles i : Nat) (r : RawArticle) :
    Except (List ValidationIssue) Article :=
  match mkSource r with
  | .error es => .error es
  | .ok src =>
    match mkCitations pool nArticles i src with
    | .error es => .error es
    | .ok cites =>
      Article.validate r.title r.summary (normCategory r.category) src cites
        (mkArticleId region date period i)

/-- Normalize the raw article sequence starting at 1-based position `i`,
aggregating violations across articles. -/
def normalizeFrom (region : Region) (date : String) (period : Period)
    (pool : List RawCitation) (nArticles : Nat) :
    Nat → List RawArticle → Except (List ValidationIssue) (List Article)
  | _, [] => .ok []
  | i, r :: rs =>
    match normalizeArticle region date period pool nArticles i r,
        normalizeFrom region date period pool nArticles (i + 1) rs with
    | .ok a, .ok as => .ok (a :: as)
    | .ok _, .error es => .error es
    | .error e, .ok _ => .error e
    | .error e, .error es => .error (e ++ es)

/-- Spec §4.3: the normalizer over the whole raw article sequence. -/
def normalizeArticles (region : Region) (date : String) (period : Period)
    (pool : List RawCitation) (raws : List RawArticle) :
    Except (List ValidationIssue) (List Article) :=
  normalizeFrom region date period pool raws.length 1 raws

/-- Spec §4.3 step 6: count the final (already-defaulted) category of each
constructed article. -/
def categoriesDistribution (arts : List Article) : List (String × Nat) :=
  [Category.politics, .economy, .technology, .sports, .health,
    .world].filterMap fun c =>
      match (arts.filter fun a => a.category == c).length with
      | 0 => none
      | k + 1 => some (c.str, k + 1)

/-! ## Formatter façade -/

/-- Failure classification of a formatting run (spec §7): the two
extractor kinds stay distinct, and every Domain Model violation surfaces
as a single aggregated validation failure. -/
inductive FormatError
  | emptyContent
  | malformedJson
  | invalid (issues : List ValidationIssue)
  deriving DecidableEq, Repr

/-- Modelled from the spec §4.4: the single entry point
`format(response, region, period, date?, workflow_run_id?)`.  The `date`
parameter is the resolved calendar date (the caller's date, defaulting
upstream to the current UTC date); `generated_at` is the caller-clock
timestamp; neither clock is modelled.  Processing time is passed as zero
(timing is not modelled). -/
def format (parse : String → Option JsonShape) (response_data : ApiResponse)
    (region : Region) (period : Period) (date : String)
    (generated_at : String) (workflow_run_id : Option String) :
    Except FormatError BulletinWrapper :=
  match extractArticles parse response_data.content with
  | .error .emptyContent => .error .emptyContent
  | .error .malformedJson => .error .malformedJson
  | .ok raws =>
    match normalizeArticles region date period response_data.citations raws with
    | .error es => .error (.invalid es)
    | .ok arts =>
      match LLMUsage.validate (response_data.usage.prompt_tokens.getD 0)
          (response_data.usage.completion_tokens.getD 0)
          (response_data.usage.total_tokens.getD 0) with
      | .error es => .error (.invalid es)
      | .ok usage =>
        match Metadata.validate arts.length (categoriesDistribution arts)
            usage 0 none workflow_run_id with
        | .error es => .error (.invalid es)
        | .ok md =>
          match Bulletin.validate (mkBulletinId region date period) region
              date period generated_at versionString arts md with
          | .error es => .error (.invalid es)
          | .ok b => .ok ⟨b⟩

/-! ## Retry utility

Translated from `src/backend/src/utils/retry_logic.py`.  A call of the
wrapped function either returns a value or raises an exception; the raised
exception is embedded as its `str(e)` string, and membership of the
`exceptions` tuple (the retryable kinds) as a predicate on that string.
Delays are embedded as rationals; `time.sleep` is recorded in the `sleeps`
trace, and the two `logger` call sites are recorded as structured log
events (their `extra` fields; the human-readable rendering of floats in
the log text is not modelled). -/

/-- The result of one call of the wrapped function. -/
inductive CallResult (α : Type)
  | ok (a : α)
  | exn (e : String)
  deriving DecidableEq, Repr

/-- The two `logger` call sites of `retry_logic.py`: the retry warning
(with `function` only present in the decorator form) and the
max-retries-exceeded error log. -/
inductive LogEvent
  | warnRetry (funcName : Option String) (attempt : Nat) (maxRetries : Int)
      (delaySeconds : ℚ) (error : String)
  | maxRetriesError (funcName : String) (attempts : Nat) (maxRetries : Int)
      (error : String)
  deriving DecidableEq, Repr

/-- How a wrapper invocation ends: a returned value, a propagated
non-retryable exception, or a raised `MaxRetriesExceeded` carrying its
message and (via `raise ... from e`) an optional cause. -/
inductive Outcome (α : Type)
  | ok (a : α)
  | raised (e : String)
  | exhausted (message : String) (cause : Option String)
  deriving DecidableEq, Repr

/-- The observable trace of one wrapper invocation: the outcome, the
number of calls of the wrapped function, the slept delays in order, and
the emitted log events in order. -/
structure RunResult (α : Type) where
  outcome : Outcome α
  calls : Nat
  sleeps : List ℚ
  logs : List LogEvent
  deriving DecidableEq, Repr

/-- Lines 64-66 and 129-131 of `retry_logic.py`: the `MaxRetriesExceeded`
message raised after a failed attempt. -/
def exhaustedMsg (maxRetries : Int) (e : String) : String :=
  "Failed after " ++ toString maxRetries ++ " attempts: " ++ e

/-- Lines 86 and 139 of `retry_logic.py`: the `MaxRetriesExceeded`
message of the fall-through after the `while` loop (reached only when the
loop body never ran). -/
def fallThroughMsg (maxRetries : Int) : String :=
  "Failed after " ++ toString maxRetries ++ " attempts"

/-- The fall-through result after the `while` loop: no cause is attached
(`raise` without `from`), and `attempt` calls were made so far. -/
def fallThroughResult (α : Type) (maxRetries : Int) (attempt : Nat) :
    RunResult α :=
  ⟨.exhausted (fallThroughMsg maxRetries) none, attempt, [], []⟩

/-- The `exponential_backoff_retry` wrapper loop (`retry_logic.py` lines
48-86), one iteration per fuel unit.  `attempt` is the Python loop
counter; at the top of each iteration it equals the number of calls made
so far, so it doubles as the 0-based index of the next call.  The loop
runs while `attempt < max_retries`; `m = max_retries.toNat` bounds the
iteration count, and the function is entered with `fuel = m`, so the
fuel-exhausted branch coincides with the loop condition turning false. -/
def decoratorGo {α : Type} (funcName : String) (f : Nat → CallResult α)
    (retryable : String → Bool) (maxRetries : Int) (m : Nat) (b M : ℚ)
    (attempt : Nat) : Nat → RunResult α
  | 0 => fallThroughResult α maxRetries attempt
  | fuel + 1 =>
    if attempt < m then
      match f attempt with
      | .ok a => ⟨.ok a, attempt + 1, [], []⟩
      | .exn e =>
        if retryable e then
          if attempt + 1 ≥ m then
            ⟨.exhausted (exhaustedMsg maxRetries e) (some e), attempt + 1, [],
              [.maxRetriesError funcName (attempt + 1) maxRetries e]⟩
          else
            let d := min (b * 2 ^ attempt) M
            let r := decoratorGo funcName f retryable maxRetries m b M
              (attempt + 1) fuel
            ⟨r.outcome, r.calls, d :: r.sleeps,
              .warnRetry (some funcName) (attempt + 1) maxRetries d e :: r.logs⟩
        else ⟨.raised e, attempt + 1, [], []⟩
    else fallThroughResult α maxRetries attempt

/-- The wrapper produced by `exponential_backoff_retry(max_retries,
base_delay, max_delay, exceptions)` applied to a function named
`funcName` whose k-th call (0-based) yields `f k`. -/
def decoratorRun {α : Type} (funcName : String) (f : Nat → CallResult α)
    (retryable : String → Bool) (maxRetries : Int) (b M : ℚ) : RunResult α :=
  decoratorGo funcName f retryable maxRetries maxRetries.toNat b M 0
    maxRetries.toNat

/-- The `retry_with_backoff` loop (`retry_logic.py` lines 122-139).  It
differs from the decorator in two ways visible in the source: the delay is
`base_delay * (2 ** (attempt - 1))` with no `max_delay` cap (the function
takes no `max_delay` parameter), and its warning log carries no function
name and no structured `extra`. -/
def retryWithBackoffGo {α : Type} (f : Nat → CallResult α)
    (retryable : String → Bool) (maxRetries : Int) (m : Nat) (b : ℚ)
    (attempt : Nat) : Nat → RunResult α
  | 0 => fallThroughResult α maxRetries attempt
  | fuel + 1 =>
    if attempt < m then
      match f attempt with
      | .ok a => ⟨.ok a, attempt + 1, [], []⟩
      | .exn e =>
        if retryable e then
          if attempt + 1 ≥ m then
            ⟨.exhausted (exhaustedMsg maxRetries e) (some e), attempt + 1, [],
              []⟩
          else
            let d := b * 2 ^ attempt
            let r := retryWithBackoffGo f retryable maxRetries m b
              (attempt + 1) fuel
            ⟨r.outcome, r.calls, d :: r.sleeps,
              .warnRetry none (attempt + 1) maxRetries d e :: r.logs⟩
        else ⟨.raised e, attempt + 1, [], []⟩
    else fallThroughResult α maxRetries attempt

/-- A run of `retry_with_backoff(func, max_retries, base_delay,
exceptions)` where the k-th call (0-based) of `func` yields `f k`. -/
def retryWithBackoffRun {α : Type} (f : Nat → CallResult α)
    (retryable : String → Bool) (maxRetries : Int) (b : ℚ) : RunResult α :=
  retryWithBackoffGo f retryable maxRetries maxRetries.toNat b 0
    maxRetries.toNat

/-! ## Validator inversion lemmas -/

theorem runChecks_ok_iff {α : Type} (is : List ValidationIssue) (a b : α) :
    runChecks is a = .ok b ↔ is = [] ∧ b = a := by
  unfold runChecks
  cases is <;> simp [eq_comm]

theorem runChecks_error_of_ne {α : Type} {is : List ValidationIssue} (a : α)
    (h : is ≠ []) : runChecks is a = .error is := by
  unfold runChecks
  cases is <;> simp_all

theorem runChecks_isOk {α : Type} (is : List ValidationIssue) (a : α) :
    (runChecks is a).isOk = is.isEmpty := by
  unfold runChecks
  cases is <;> rfl

theorem if_nil_iff {c : Prop} [Decidable c] (i : ValidationIssue) :
    ((if c then ([] : List ValidationIssue) else [i]) = []) ↔ c := by
  split_ifs with h <;> simp [h]

theorem if_nil_iff_not {c : Prop} [Decidable c] (i : ValidationIssue) :
    ((if c then [i] else ([] : List ValidationIssue)) = []) ↔ ¬c := by
  split_ifs with h <;> simp [h]

theorem bulletin_issues_nil_iff (id : String) (region : Region) (date : String)
    (period : Period) (articles : List Article) :
    Bulletin.issues id region date period articles = [] ↔
      id = mkBulletinId region date period ∧ dateShaped date = true ∧
      (5 ≤ articles.length ∧ articles.length ≤ 10) ∧
      (articles.map Article.article_id).Nodup := by
  unfold Bulletin.issues checkAll
  simp only [List.foldr, List.append_nil, List.append_eq_nil, if_nil_iff]

theorem article_issues_nil_iff (title summary : String)
    (citations : List Citation) :
    Article.issues title summary citations = [] ↔
      (10 ≤ strLen title ∧ strLen title ≤ 120) ∧
      (40 ≤ strLen summary ∧ strLen summary ≤ 500) ∧
      (20 ≤ wordCount summary ∧ wordCount summary ≤ 100) ∧
      (1 ≤ citations.length ∧ citations.length ≤ 3) := by
  unfold Article.issues checkAll
  simp only [List.foldr, List.append_nil, List.append_eq_nil, if_nil_iff]

theorem llm_usage_issues_nil_iff (p c t : Int) :
    LLMUsage.issues p c t = [] ↔ 0 ≤ p ∧ 0 ≤ c ∧ 0 ≤ t ∧ t = p + c := by
  unfold LLMUsage.issues checkAll
  simp only [List.foldr, List.append_nil, List.append_eq_nil, if_nil_iff]

/-! ## Concrete witness data

Concrete values mirroring the fixtures of the repository's test suites,
used to instantiate the claim theorems on evaluable inputs. -/

def witDate : String := "2025-12-15"

def witStamp : String := "2025-12-15T08:00:00Z"

def witSummary : String :=
  String.append
    (String.append
      "This is a test summary with at least twenty words to meet the "
      "minimum requirement for validation purposes ")
    "and testing."

def witSource : Source := ⟨"Test Source", defaultSourceUrl, none⟩

def witCitation : Citation := ⟨"Reference", defaultSourceUrl, "Test Pub"⟩

def witArticle (i : Nat) : Article :=
  ⟨String.append "Witness Article Title " (Nat.repr i), witSummary,
    .politics, witSource, [witCitation], mkArticleId .usa witDate .morning i⟩

def badShortTitle : String := "Short"

def badShortSummary : String := "Too short"

def witUsage : LLMUsage := ⟨100, 200, 300⟩

def witMetadata : Metadata :=
  ⟨5, [(Category.str .politics, 5)], witUsage, 0, defaultModelName, none⟩

def witArticles : List Article :=
  [witArticle 1, witArticle 2, witArticle 3, witArticle 4, witArticle 5]

def witBulletin : Bulletin :=
  ⟨mkBulletinId .usa witDate .morning, .usa, witDate, .morning, witStamp,
    versionString, witArticles, witMetadata⟩

def notJsonContent : String := "This is not JSON"

def badCategory : String := "invalid_category"

def demoContent : String := "demo content with articles payload"

def demoRaw (i : Nat) (cat : Option String) : RawArticle :=
  ⟨String.append "Demo Article Title " (Nat.repr i), witSummary, cat, none,
    none⟩

def demoRaws : List RawArticle :=
  [demoRaw 1 (some (Category.str .politics)),
   demoRaw 2 (some (Category.str .politics)),
   demoRaw 3 (some (Category.str .economy)),
   demoRaw 4 (some badCategory),
   demoRaw 5 none]

/-- A concrete stand-in for the JSON parsing primitive: it recognizes the
demo content and classifies it as an object holding the demo articles. -/
def demoParse : String → Option JsonShape := fun s =>
  if s = demoContent then some (.objWithArticles demoRaws) else none

def demoResp : ApiResponse :=
  ⟨demoContent, [], ⟨some 100, some 200, some 300⟩⟩

/-- The result of the demo formatting run (the run succeeds, so the
error-branch default is never taken). -/
def demoWrapper : BulletinWrapper :=
  match format demoParse demoResp .usa .morning witDate witStamp none with
  | .ok w => w
  | .error _ => ⟨witBulletin⟩

theorem demo_format_ok :
    format demoParse demoResp .usa .morning witDate witStamp none =
      .ok demoWrapper := by
  rfl

/-- The first article of the demo run (the run yields five articles, so
the default is never taken). -/
def demoHeadArticle : Article :=
  List.headD (Bulletin.articles (BulletinWrapper.bulletin demoWrapper))
    (witArticle 1)

/-- The article normalized from the demo raw article carrying the unknown
category string (normalization succeeds, so the default is never
taken). -/
def demoInvalidCatArticle : Article :=
  match normalizeArticle .usa witDate .morning [] 5 4
      (demoRaw 4 (some badCategory)) with
  | .ok a => a
  | .error _ => witArticle 4

/-! ## C1: Bulletin construction invariants -/

/-- C1.  For every Bulletin that construction yields, the articles
sequence has length between 5 and 10 inclusive and all `article_id`
values of its articles are pairwise distinct; any attempted construction
violating either bound fails with a validation error rather than
producing an instance. -/
theorem bulletin_construction_invariants (id : String) (region : Region)
    (date : String) (period : Period) (generated_at version : String)
    (articles : List Article) (metadata : Metadata) :
    (∀ b, Bulletin.validate id region date period generated_at version
        articles metadata = .ok b →
      5 ≤ b.articles.length ∧ b.articles.length ≤ 10 ∧
        (b.articles.map Article.article_id).Nodup) ∧
    (articles.length < 5 ∨ 10 < articles.length ∨
        ¬(articles.map Article.article_id).Nodup →
      ∃ is, Bulletin.validate id region date period generated_at version
        articles metadata = .error is) := by
  constructor
  · intro b hb
    unfold Bulletin.validate at hb
    obtain ⟨hnil, hb⟩ := (runChecks_ok_iff _ _ _).mp hb
    obtain ⟨-, -, hcount, hnodup⟩ := (bulletin_issues_nil_iff _ _ _ _ _).mp hnil
    subst hb
    exact ⟨hcount.1, hcount.2, hnodup⟩
  · intro hbad
    refine ⟨Bulletin.issues id region date period articles, ?_⟩
    unfold Bulletin.validate
    apply runChecks_error_of_ne
    intro hnil
    obtain ⟨-, -, hcount, hnodup⟩ := (bulletin_issues_nil_iff _ _ _ _ _).mp hnil
    rcases hbad with h | h | h
    · omega
    · omega
    · exact h hnodup

/-- Witness for C1: a concrete construction with five distinct article
ids succeeds and satisfies the invariant, and a concrete construction
with an empty articles list fails. -/
theorem bulletin_construction_invariants_witness :
    (5 ≤ witBulletin.articles.length ∧ witBulletin.articles.length ≤ 10 ∧
      (witBulletin.articles.map Article.article_id).Nodup) ∧
    (∃ is, Bulletin.validate (mkBulletinId .usa witDate .morning) .usa
      witDate .morning witStamp versionString [] witMetadata = .error is) :=
  ⟨(bulletin_construction_invariants (mkBulletinId .usa witDate .morning)
      .usa witDate .morning witStamp versionString witArticles
      witMetadata).1 witBulletin (by
        unfold Bulletin.validate
        exact (runChecks_ok_iff _ _ _).mpr ⟨by decide, by rfl⟩),
    (bulletin_construction_invariants (mkBulletinId .usa witDate .morning)
      .usa witDate .morning witStamp versionString [] witMetadata).2
      (by decide)⟩

/-! ## C2: Article construction invariants -/

/-- C2.  For every Article that construction yields, the citation list
has length between 1 and 3, the title has between 10 and 120 characters,
the summary has between 40 and 500 characters, and the
whitespace-delimited word count of the summary is between 20 and 100;
construction with any of these bounds violated fails with a validation
error naming the offending field. -/
theorem article_construction_bounds (title summary : String)
    (category : Category) (source : Source) (citations : List Citation)
    (article_id : String) :
    (∀ a, Article.validate title summary category source citations
        article_id = .ok a →
      (1 ≤ a.citations.length ∧ a.citations.length ≤ 3) ∧
      (10 ≤ strLen a.title ∧ strLen a.title ≤ 120) ∧
      (40 ≤ strLen a.summary ∧ strLen a.summary ≤ 500) ∧
      (20 ≤ wordCount a.summary ∧ wordCount a.summary ≤ 100)) ∧
    (¬(10 ≤ strLen title ∧ strLen title ≤ 120) →
      ∃ is, Article.validate title summary category source citations
          article_id = .error is ∧
        ∃ i ∈ is, ValidationIssue.field i = "title") ∧
    (¬(40 ≤ strLen summary ∧ strLen summary ≤ 500) →
      ∃ is, Article.validate title summary category source citations
          article_id = .error is ∧
        ∃ i ∈ is, ValidationIssue.field i = "summary") ∧
    (¬(20 ≤ wordCount summary ∧ wordCount summary ≤ 100) →
      ∃ is, Article.validate title summary category source citations
          article_id = .error is ∧
        ∃ i ∈ is, ValidationIssue.field i = "summary") ∧
    (¬(1 ≤ citations.length ∧ citations.length ≤ 3) →
      ∃ is, Article.validate title summary category source citations
          article_id = .error is ∧
        ∃ i ∈ is, ValidationIssue.field i = "citations") := by
  refine ⟨?_, ?_, ?_, ?_, ?_⟩
  · intro a ha
    unfold Article.validate at ha
    obtain ⟨hnil, ha⟩ := (runChecks_ok_iff _ _ _).mp ha
    obtain ⟨ht, hs, hw, hc⟩ := (article_issues_nil_iff _ _ _).mp hnil
    subst ha
    exact ⟨hc, ht, hs, hw⟩
  · intro h
    refine ⟨Article.issues title summary citations, ?_,
      ⟨"title", "length 10-120"⟩, ?_, rfl⟩
    · unfold Article.validate
      apply runChecks_error_of_ne
      intro hnil
      rw [article_issues_nil_iff] at hnil
      tauto
    · unfold Article.issues checkAll
      simp [List.mem_append, if_neg h]
  · intro h
    refine ⟨Article.issues title summary citations, ?_,
      ⟨"summary", "length 40-500"⟩, ?_, rfl⟩
    · unfold Article.validate
      apply runChecks_error_of_ne
      intro hnil
      rw [article_issues_nil_iff] at hnil
      tauto
    · unfold Article.issues checkAll
      simp [List.mem_append, if_neg h]
  · intro h
    refine ⟨Article.issues title summary citations, ?_,
      ⟨"summary", "word count 20-100"⟩, ?_, rfl⟩
    · unfold Article.validate
      apply runChecks_error_of_ne
      intro hnil
      rw [article_issues_nil_iff] at hnil
      tauto
    · unfold Article.issues checkAll
      simp [List.mem_append, if_neg h]
  · intro h
    refine ⟨Article.issues title summary citations, ?_,
      ⟨"citations", "count 1-3"⟩, ?_, rfl⟩
    · unfold Article.validate
      apply runChecks_error_of_ne
      intro hnil
      rw [article_issues_nil_iff] at hnil
      tauto
    · unfold Article.issues checkAll
      simp [List.mem_append, if_neg h]

/-- Witness for C2: a concrete valid article satisfies the bounds, and
concrete constructions with a short title, a short summary, a
low word count and an empty citation list each fail naming the
offending field. -/
theorem article_construction_bounds_witness :
    ((1 ≤ (witArticle 1).citations.length ∧
        (witArticle 1).citations.length ≤ 3) ∧
      (10 ≤ strLen (witArticle 1).title ∧ strLen (witArticle 1).title ≤ 120) ∧
      (40 ≤ strLen (witArticle 1).summary ∧
        strLen (witArticle 1).summary ≤ 500) ∧
      (20 ≤ wordCount (witArticle 1).summary ∧
        wordCount (witArticle 1).summary ≤ 100)) ∧
    (∃ is, Article.validate badShortTitle witSummary .politics witSource
        [witCitation] (mkArticleId .usa witDate .morning 1) = .error is ∧
      ∃ i ∈ is, ValidationIssue.field i = "title") ∧
    (∃ is, Article.validate (Article.title (witArticle 1)) badShortSummary
        .politics witSource [witCitation]
        (mkArticleId .usa witDate .morning 1) = .error is ∧
      ∃ i ∈ is, ValidationIssue.field i = "summary") ∧
    (∃ is, Article.validate (Article.title (witArticle 1)) witSummary
        .politics witSource [] (mkArticleId .usa witDate .morning 1) =
          .error is ∧
      ∃ i ∈ is, ValidationIssue.field i = "citations") :=
  ⟨(article_construction_bounds (Article.title (witArticle 1)) witSummary
      .politics witSource [witCitation]
      (mkArticleId .usa witDate .morning 1)).1 (witArticle 1) (by
        unfold Article.validate
        exact (runChecks_ok_iff _ _ _).mpr ⟨by decide, by rfl⟩),
    (article_construction_bounds badShortTitle witSummary .politics witSource
      [witCitation] (mkArticleId .usa witDate .morning 1)).2.1 (by decide),
    (article_construction_bounds (Article.title (witArticle 1))
      badShortSummary .politics witSource [witCitation]
      (mkArticleId .usa witDate .morning 1)).2.2.1 (by decide),
    (article_construction_bounds (Article.title (witArticle 1)) witSummary
      .politics witSource [] (mkArticleId .usa witDate .morning 1)).2.2.2.2
      (by decide)⟩

/-! ## Formatter inversion -/

/-- A successful formatting run decomposes into successful extraction,
normalization, usage, metadata and bulletin construction, and the
returned wrapper carries exactly the assembled pieces. -/
theorem format_ok_inversion {parse : String → Option JsonShape}
    {resp : ApiResponse} {region : Region} {period : Period}
    {date generated_at : String} {wf : Option String} {w : BulletinWrapper}
    (h : format parse resp region period date generated_at wf = .ok w) :
    ∃ raws arts usage md,
      extractArticles parse resp.content = .ok raws ∧
      normalizeArticles region date period resp.citations raws = .ok arts ∧
      LLMUsage.validate (resp.usage.prompt_tokens.getD 0)
        (resp.usage.completion_tokens.getD 0)
        (resp.usage.total_tokens.getD 0) = .ok usage ∧
      Metadata.validate arts.length (categoriesDistribution arts) usage 0
        none wf = .ok md ∧
      w.bulletin.articles = arts ∧ w.bulletin.metadata = md ∧
      md.llm_usage = usage ∧
      w.bulletin.id = mkBulletinId region date period := by
  unfold format at h
  split at h
  · exact absurd h (by simp)
  · exact absurd h (by simp)
  · rename_i raws hE
    split at h
    · exact absurd h (by simp)
    · rename_i arts hN
      split at h
      · exact absurd h (by simp)
      · rename_i usage hU
        split at h
        · exact absurd h (by simp)
        · rename_i md hM
          split at h
          · exact absurd h (by simp)
          · rename_i b hB
            obtain ⟨hmnil, hmd⟩ := (runChecks_ok_iff _ _ _).mp hM
            obtain ⟨hbnil, hb⟩ := (runChecks_ok_iff _ _ _).mp hB
            simp only [Except.ok.injEq] at h
            subst h
            subst hmd
            subst hb
            exact ⟨raws, arts, usage, _, hE, hN, hU, hM, rfl, rfl, rfl, rfl⟩

/-! ## C3: Token-usage sum invariant -/

/-- C3.  A Token-Usage construction yields an instance only if
`total_tokens` equals `prompt_tokens + completion_tokens`; a mismatch is
a validation error on `total_tokens` and the fields are never silently
corrected; consequently the `llm_usage` of every returned Bulletin's
metadata satisfies the sum equation. -/
theorem llm_usage_sum_invariant (p c t : Int) :
    (∀ u, LLMUsage.validate p c t = .ok u →
      LLMUsage.total_tokens u =
          LLMUsage.prompt_tokens u + LLMUsage.completion_tokens u ∧
        LLMUsage.prompt_tokens u = p ∧ LLMUsage.completion_tokens u = c ∧
        LLMUsage.total_tokens u = t) ∧
    (t ≠ p + c →
      ∃ is, LLMUsage.validate p c t = .error is ∧
        ∃ i ∈ is, ValidationIssue.field i = "total_tokens") ∧
    (∀ parse resp region period date generated_at wf w,
      format parse resp region period date generated_at wf = .ok w →
      LLMUsage.total_tokens (Metadata.llm_usage (Bulletin.metadata
          (BulletinWrapper.bulletin w))) =
        LLMUsage.prompt_tokens (Metadata.llm_usage (Bulletin.metadata
          (BulletinWrapper.bulletin w))) +
        LLMUsage.completion_tokens (Metadata.llm_usage (Bulletin.metadata
          (BulletinWrapper.bulletin w)))) := by
  refine ⟨?_, ?_, ?_⟩
  · intro u hu
    unfold LLMUsage.validate at hu
    obtain ⟨hnil, hu⟩ := (runChecks_ok_iff _ _ _).mp hu
    obtain ⟨-, -, -, hsum⟩ := (llm_usage_issues_nil_iff _ _ _).mp hnil
    subst hu
    exact ⟨hsum, rfl, rfl, rfl⟩
  · intro h
    refine ⟨LLMUsage.issues p c t, ?_,
      ⟨"total_tokens", "must equal prompt_tokens + completion_tokens"⟩, ?_,
      rfl⟩
    · unfold LLMUsage.validate
      apply runChecks_error_of_ne
      intro hnil
      rw [llm_usage_issues_nil_iff] at hnil
      exact h hnil.2.2.2
    · unfold LLMUsage.issues checkAll
      simp [List.mem_append, if_neg h]
  · intro parse resp region period date generated_at wf w hw
    obtain ⟨_, _, usage, _, _, _, hU, _, _, hmd, husage, _⟩ :=
      format_ok_inversion hw
    rw [hmd, husage]
    unfold LLMUsage.validate at hU
    obtain ⟨hnil, hu⟩ := (runChecks_ok_iff _ _ _).mp hU
    obtain ⟨-, -, -, hsum⟩ := (llm_usage_issues_nil_iff _ _ _).mp hnil
    subst hu
    exact hsum

/-- Witness for C3: the usage 100/200/300 validates and satisfies the
sum, the usage 100/200/250 is rejected on `total_tokens`, and the demo
formatting run's metadata satisfies the sum. -/
theorem llm_usage_sum_invariant_witness :
    (LLMUsage.total_tokens witUsage =
        LLMUsage.prompt_tokens witUsage + LLMUsage.completion_tokens witUsage ∧
      LLMUsage.prompt_tokens witUsage = 100 ∧
      LLMUsage.completion_tokens witUsage = 200 ∧
      LLMUsage.total_tokens witUsage = 300) ∧
    (∃ is, LLMUsage.validate 100 200 250 = .error is ∧
      ∃ i ∈ is, ValidationIssue.field i = "total_tokens") ∧
    LLMUsage.total_tokens (Metadata.llm_usage (Bulletin.metadata
        (BulletinWrapper.bulletin demoWrapper))) =
      LLMUsage.prompt_tokens (Metadata.llm_usage (Bulletin.metadata
        (BulletinWrapper.bulletin demoWrapper))) +
      LLMUsage.completion_tokens (Metadata.llm_usage (Bulletin.metadata
        (BulletinWrapper.bulletin demoWrapper))) :=
  ⟨(llm_usage_sum_invariant 100 200 300).1 witUsage (by decide),
    (llm_usage_sum_invariant 100 200 250).2.1 (by decide),
    (llm_usage_sum_invariant 100 200 300).2.2 demoParse demoResp .usa
      .morning witDate witStamp none demoWrapper demo_format_ok⟩

/-! ## C4: Extractor failure kinds -/

/-- C4.  For every input whose trimmed form is empty the extractor fails
with the empty-content error; for every non-empty input that is not
parseable as JSON after fence-stripping it fails with the malformed-JSON
error; and the two failure kinds are distinct, so callers can tell them
apart by kind alone. -/
theorem extractor_failure_kinds (parse : String → Option JsonShape)
    (content : String) :
    (trimStr content = "" →
      extractArticles parse content = .error .emptyContent) ∧
    (trimStr content ≠ "" →
      parse (stripFence (trimStr content)) = none →
      extractArticles parse content = .error .malformedJson) ∧
    ExtractError.emptyContent ≠ ExtractError.malformedJson := by
  refine ⟨?_, ?_, by simp⟩
  · intro h
    unfold extractArticles
    simp [h]
  · intro h hp
    unfold extractArticles
    simp [h, hp]

/-- Witness for C4: the empty string yields the empty-content error, the
string "This is not JSON" (with a parser rejecting it) yields the
malformed-JSON error, and the kinds differ. -/
theorem extractor_failure_kinds_witness :
    extractArticles (fun _ => none) "" = .error .emptyContent ∧
    extractArticles (fun _ => none) notJsonContent = .error .malformedJson ∧
    ExtractError.emptyContent ≠ ExtractError.malformedJson :=
  ⟨(extractor_failure_kinds (fun _ => none) "").1 (by decide),
    (extractor_failure_kinds (fun _ => none) notJsonContent).2.1 (by decide)
      rfl,
    (extractor_failure_kinds (fun _ => none) notJsonContent).2.2⟩

/-! ## Normalizer lemmas -/

/-- A successfully normalized article is exactly the validated record
built from the raw fields, the defaulted category, the constructed source
and citations, and the derived identifier. -/
theorem normalizeArticle_ok {region : Region} {date : String}
    {period : Period} {pool : List RawCitation} {n i : Nat} {r : RawArticle}
    {a : Article}
    (h : normalizeArticle region date period pool n i r = .ok a) :
    ∃ src cites, mkSource r = .ok src ∧
      mkCitations pool n i src = .ok cites ∧
      a = ⟨r.title, r.summary, normCategory r.category, src, cites,
        mkArticleId region date period i⟩ := by
  unfold normalizeArticle at h
  split at h
  · exact absurd h (by simp)
  · rename_i src hs
    split at h
    · exact absurd h (by simp)
    · rename_i cites hc
      unfold Article.validate at h
      obtain ⟨-, ha⟩ := (runChecks_ok_iff _ _ _).mp h
      exact ⟨src, cites, hs, hc, ha⟩

/-- Whether per-article normalization succeeds is determined by the
source, citation and article issue lists; the category never enters (the
issue list does not mention it). -/
theorem normalizeArticle_isOk (region : Region) (date : String)
    (period : Period) (pool : List RawCitation) (n i : Nat)
    (r : RawArticle) :
    Except.isOk (normalizeArticle region date period pool n i r) =
      (match mkSource r with
        | .error _ => false
        | .ok src =>
          match mkCitations pool n i src with
          | .error _ => false
          | .ok cites =>
            (Article.issues (RawArticle.title r) (RawArticle.summary r)
              cites).isEmpty) := by
  unfold normalizeArticle
  cases hs : mkSource r with
  | error es => simp [hs, Except.isOk, Except.toBool]
  | ok src =>
    cases hc : mkCitations pool n i src with
    | error es => simp [hs, hc, Except.isOk, Except.toBool]
    | ok cites => simp [hs, hc, Article.validate, runChecks_isOk]

/-- Per-article normalization success never depends on the raw category
value. -/
theorem normalizeArticle_isOk_category (region : Region) (date : String)
    (period : Period) (pool : List RawCitation) (n i : Nat) (r : RawArticle)
    (c' : Option String) :
    Except.isOk (normalizeArticle region date period pool n i r) =
      Except.isOk (normalizeArticle region date period pool n i
        { r with category := c' }) := by
  rw [normalizeArticle_isOk region date period pool n i r,
    normalizeArticle_isOk region date period pool n i
      { r with category := c' }]
  rfl

/-- Success of a cons step of the normalization loop splits into success
of the head article and of the tail. -/
theorem normalizeFrom_cons_isOk (region : Region) (date : String)
    (period : Period) (pool : List RawCitation) (n s : Nat) (r : RawArticle)
    (rs : List RawArticle) :
    Except.isOk (normalizeFrom region date period pool n s (r :: rs)) =
      (Except.isOk (normalizeArticle region date period pool n s r) &&
        Except.isOk (normalizeFrom region date period pool n (s + 1) rs)) := by
  simp only [normalizeFrom]
  cases h1 : normalizeArticle region date period pool n s r with
  | error e1 =>
    cases h2 : normalizeFrom region date period pool n (s + 1) rs with
    | error e2 => simp [h1, h2, Except.isOk, Except.toBool]
    | ok as => simp [h1, h2, Except.isOk, Except.toBool]
  | ok a =>
    cases h2 : normalizeFrom region date period pool n (s + 1) rs with
    | error e2 => simp [h1, h2, Except.isOk, Except.toBool]
    | ok as => simp [h1, h2, Except.isOk, Except.toBool]

/-- Success of the normalization loop is unaffected by replacing the
category of any single raw article. -/
theorem normalizeFrom_isOk_category (region : Region) (date : String)
    (period : Period) (pool : List RawCitation) (n : Nat) :
    ∀ (pre : List RawArticle) (s : Nat) (r : RawArticle)
      (post : List RawArticle) (c' : Option String),
      Except.isOk (normalizeFrom region date period pool n s
        (pre ++ r :: post)) =
      Except.isOk (normalizeFrom region date period pool n s
        (pre ++ { r with category := c' } :: post))
  | [], s, r, post, c' => by
    rw [List.nil_append, List.nil_append, normalizeFrom_cons_isOk,
      normalizeFrom_cons_isOk,
      normalizeArticle_isOk_category region date period pool n s r c']
  | p :: pre, s, r, post, c' => by
    rw [List.cons_append, List.cons_append, normalizeFrom_cons_isOk,
      normalizeFrom_cons_isOk,
      normalizeFrom_isOk_category region date period pool n pre (s + 1) r
        post c']

/-! ## C5: Category fallback -/

/-- C5.  For every raw article whose category string does not match a
known Category enumeration value case-sensitively (absent, misspelled, or
unknown), the normalizer assigns the fixed default category "world" to
the resulting Article; and the success of normalization — of the article
itself and of any run containing it — is unaffected by the category
value, so the run never fails for this reason alone. -/
theorem category_fallback_default (region : Region) (date : String)
    (period : Period) (pool : List RawCitation) (n i : Nat) (r : RawArticle)
    (hmiss : Option.bind (RawArticle.category r) Category.fromStr = none) :
    (∀ a, normalizeArticle region date period pool n i r = .ok a →
      Article.category a = Category.world) ∧
    (∀ c', Except.isOk (normalizeArticle region date period pool n i r) =
      Except.isOk (normalizeArticle region date period pool n i
        { r with category := c' })) ∧
    (∀ pre post s c',
      Except.isOk (normalizeFrom region date period pool n s
        (pre ++ r :: post)) =
      Except.isOk (normalizeFrom region date period pool n s
        (pre ++ { r with category := c' } :: post))) := by
  refine ⟨?_, ?_, ?_⟩
  · intro a ha
    obtain ⟨src, cites, -, -, ha⟩ := normalizeArticle_ok ha
    subst ha
    show normCategory (RawArticle.category r) = Category.world
    unfold normCategory
    rw [hmiss]
    rfl
  · intro c'
    exact normalizeArticle_isOk_category region date period pool n i r c'
  · intro pre post s c'
    exact normalizeFrom_isOk_category region date period pool n pre s r
      post c'

/-- Witness for C5: a raw article with category "invalid_category"
normalizes to the default category "world", and its success status
coincides with the same raw article carrying the valid category
"politics". -/
theorem category_fallback_default_witness :
    Article.category demoInvalidCatArticle = Category.world ∧
    Except.isOk (normalizeArticle .usa witDate .morning [] 5 4
        (demoRaw 4 (some badCategory))) =
      Except.isOk (normalizeArticle .usa witDate .morning [] 5 4
        { demoRaw 4 (some badCategory) with
          category := some (Category.str .politics) }) ∧
    Except.isOk (normalizeFrom .usa witDate .morning [] 5 1
        ([] ++ demoRaw 4 (some badCategory) :: [])) =
      Except.isOk (normalizeFrom .usa witDate .morning [] 5 1
        ([] ++ { demoRaw 4 (some badCategory) with
          category := some (Category.str .politics) } :: [])) :=
  ⟨(category_fallback_default .usa witDate .morning [] 5 4
      (demoRaw 4 (some badCategory)) (by decide)).1 demoInvalidCatArticle
      (by rfl),
    (category_fallback_default .usa witDate .morning [] 5 4
      (demoRaw 4 (some badCategory)) (by decide)).2.1
      (some (Category.str .politics)),
    (category_fallback_default .usa witDate .morning [] 5 4
      (demoRaw 4 (some badCategory)) (by decide)).2.2 [] [] 1
      (some (Category.str .politics))⟩

/-! ## C6: Default citation on empty pool -/

/-- With an empty shared citation pool, a successfully normalized article
carries exactly the single synthesized default citation: fixed title
"Original Source", the article's own source URL, the source's name as
publisher. -/
theorem normalizeArticle_empty_pool {region : Region} {date : String}
    {period : Period} {n i : Nat} {r : RawArticle} {a : Article}
    (h : normalizeArticle region date period [] n i r = .ok a) :
    Article.citations a = [defaultCitationOf (Article.source a)] := by
  obtain ⟨src, cites, -, hc, ha⟩ := normalizeArticle_ok h
  subst ha
  show cites = [defaultCitationOf src]
  unfold mkCitations assignRawCitations at hc
  cases hv : Citation.validate originalSourceTitle (Source.url src)
      (Source.name src) with
  | error es => rw [hv] at hc; exact absurd hc (by simp [Except.map])
  | ok c =>
    rw [hv] at hc
    simp only [Except.map, Except.ok.injEq] at hc
    unfold Citation.validate at hv
    obtain ⟨-, hcit⟩ := (runChecks_ok_iff _ _ _).mp hv
    subst hcit
    subst hc
    rfl

/-- Every article of a successful normalization run arises from a
successful per-article normalization. -/
theorem normalizeFrom_mem {region : Region} {date : String}
    {period : Period} {pool : List RawCitation} {n : Nat} :
    ∀ {raws : List RawArticle} {s : Nat} {arts : List Article},
      normalizeFrom region date period pool n s raws = .ok arts →
      ∀ a ∈ arts, ∃ j r,
        normalizeArticle region date period pool n j r = .ok a
  | [], s, arts, h => by
    unfold normalizeFrom at h
    simp only [Except.ok.injEq] at h
    subst h
    intro a ha
    exact absurd ha (by simp)
  | r :: rs, s, arts, h => by
    unfold normalizeFrom at h
    split at h
    · rename_i a' as' ha' has'
      simp only [Except.ok.injEq] at h
      subst h
      intro a ha
      rcases List.mem_cons.mp ha with rfl | hmem
      · exact ⟨s, r, ha'⟩
      · exact normalizeFrom_mem has' a hmem
    · exact absurd h (by simp)
    · exact absurd h (by simp)
    · exact absurd h (by simp)

/-- C6.  For every formatting run whose shared citation pool is empty,
every Article of the resulting Bulletin has exactly one citation, whose
title is the fixed string "Original Source", whose URL is that article's
own source URL, and whose publisher is the source's name. -/
theorem empty_pool_default_citations (parse : String → Option JsonShape)
    (resp : ApiResponse) (region : Region) (period : Period)
    (date generated_at : String) (wf : Option String) (w : BulletinWrapper)
    (hpool : ApiResponse.citations resp = [])
    (hw : format parse resp region period date generated_at wf = .ok w) :
    ∀ a ∈ Bulletin.articles (BulletinWrapper.bulletin w),
      Article.citations a =
        [⟨originalSourceTitle, Source.url (Article.source a),
          Source.name (Article.source a)⟩] := by
  obtain ⟨raws, arts, usage, md, -, hN, -, -, harts, -, -, -⟩ :=
    format_ok_inversion hw
  rw [harts]
  intro a ha
  unfold normalizeArticles at hN
  rw [hpool] at hN
  obtain ⟨j, r, hj⟩ := normalizeFrom_mem hN a ha
  exact normalizeArticle_empty_pool hj

/-- Witness for C6: in the demo run (empty pool, five articles) the
first resulting article carries exactly the default citation. -/
theorem empty_pool_default_citations_witness :
    Article.citations demoHeadArticle =
      [⟨originalSourceTitle, Source.url (Article.source demoHeadArticle),
        Source.name (Article.source demoHeadArticle)⟩] :=
  empty_pool_default_citations demoParse demoResp .usa .morning witDate
    witStamp none demoWrapper (by rfl) demo_format_ok demoHeadArticle
    (by decide)

/-! ## C7: Identifier derivation -/

/-- The article at 0-based position `j` of a successful normalization run
starting at 1-based position `s` carries the derived identifier for
position `s + j`. -/
theorem normalizeFrom_get {region : Region} {date : String}
    {period : Period} {pool : List RawCitation} {n : Nat} :
    ∀ {raws : List RawArticle} {s : Nat} {arts : List Article},
      normalizeFrom region date period pool n s raws = .ok arts →
      ∀ (j : Nat) (a : Article), arts[j]? = some a →
        Article.article_id a = mkArticleId region date period (s + j)
  | [], s, arts, h => by
    unfold normalizeFrom at h
    simp only [Except.ok.injEq] at h
    subst h
    intro j a ha
    exact absurd ha (by simp)
  | r :: rs, s, arts, h => by
    unfold normalizeFrom at h
    split at h
    · rename_i a' as' ha' has'
      simp only [Except.ok.injEq] at h
      subst h
      intro j a ha
      cases j with
      | zero =>
        simp only [List.getElem?_cons_zero, Option.some.injEq] at ha
        subst ha
        obtain ⟨src, cites, -, -, ha⟩ := normalizeArticle_ok ha'
        subst ha
        show mkArticleId region date period s =
          mkArticleId region date period (s + 0)
        rw [Nat.add_zero]
      | succ j =>
        simp only [List.getElem?_cons_succ] at ha
        have hIH := normalizeFrom_get has' j a ha
        rw [hIH]
        congr 1
        omega
    · exact absurd h (by simp)
    · exact absurd h (by simp)
    · exact absurd h (by simp)

/-- C7.  For every successful formatting run with fixed region, period
and date, the article at 1-based position `i = j + 1` receives
`article_id = "{region}-{date}-{period}-{i:03d}"` and the Bulletin id
equals `"{region}-{date}-{period}"`; consequently any two successful runs
with the same region, period and date (in particular the same raw
response formatted twice) yield identical `article_id` and `id`
values. -/
theorem article_id_derivation (parse : String → Option JsonShape)
    (resp : ApiResponse) (region : Region) (period : Period)
    (date generated_at : String) (wf : Option String) (w : BulletinWrapper)
    (hw : format parse resp region period date generated_at wf = .ok w) :
    Bulletin.id (BulletinWrapper.bulletin w) =
      Region.str region ++ "-" ++ date ++ "-" ++ Period.str period ∧
    (∀ (j : Nat) (a : Article),
      (Bulletin.articles (BulletinWrapper.bulletin w))[j]? = some a →
      Article.article_id a =
        Region.str region ++ "-" ++ date ++ "-" ++ Period.str period ++
          "-" ++ pad3 (j + 1)) ∧
    (∀ parse2 resp2 generated_at2 wf2 w2,
      format parse2 resp2 region period date generated_at2 wf2 = .ok w2 →
      Bulletin.id (BulletinWrapper.bulletin w2) =
        Bulletin.id (BulletinWrapper.bulletin w) ∧
      ∀ (j : Nat) (a a2 : Article),
        (Bulletin.articles (BulletinWrapper.bulletin w))[j]? = some a →
        (Bulletin.articles (BulletinWrapper.bulletin w2))[j]? = some a2 →
        Article.article_id a2 = Article.article_id a) := by
  obtain ⟨raws, arts, usage, md, -, hN, -, -, harts, -, -, hid⟩ :=
    format_ok_inversion hw
  unfold normalizeArticles at hN
  refine ⟨hid, ?_, ?_⟩
  · intro j a ha
    rw [harts] at ha
    have h := normalizeFrom_get hN j a ha
    rw [h]
    show mkArticleId region date period (1 + j) = _
    rw [Nat.add_comm 1 j]
    rfl
  · intro parse2 resp2 generated_at2 wf2 w2 hw2
    obtain ⟨raws2, arts2, usage2, md2, -, hN2, -, -, harts2, -, -, hid2⟩ :=
      format_ok_inversion hw2
    unfold normalizeArticles at hN2
    refine ⟨by rw [hid, hid2], ?_⟩
    intro j a a2 ha ha2
    rw [harts] at ha
    rw [harts2] at ha2
    rw [normalizeFrom_get hN j a ha, normalizeFrom_get hN2 j a2 ha2]

/-- Witness for C7: in the demo run the bulletin id is
"usa-2025-12-15-morning", the first article's id carries the padded
1-based position, and a second identical run yields the same bulletin
id. -/
theorem article_id_derivation_witness :
    Bulletin.id (BulletinWrapper.bulletin demoWrapper) =
      Region.str .usa ++ "-" ++ witDate ++ "-" ++ Period.str .morning ∧
    Article.article_id demoHeadArticle =
      Region.str .usa ++ "-" ++ witDate ++ "-" ++ Period.str .morning ++
        "-" ++ pad3 1 ∧
    Bulletin.id (BulletinWrapper.bulletin demoWrapper) =
      Bulletin.id (BulletinWrapper.bulletin demoWrapper) :=
  ⟨(article_id_derivation demoParse demoResp .usa .morning witDate witStamp
      none demoWrapper demo_format_ok).1,
    (article_id_derivation demoParse demoResp .usa .morning witDate witStamp
      none demoWrapper demo_format_ok).2.1 0 demoHeadArticle (by decide),
    ((article_id_derivation demoParse demoResp .usa .morning witDate witStamp
      none demoWrapper demo_format_ok).2.2 demoParse demoResp witStamp none
      demoWrapper demo_format_ok).1⟩

/-! ## Retry loop characterization -/

/-- Prepending the image of zero turns a shifted range map into the map
over the extended range. -/
theorem range_map_cons {β : Type} (g : Nat → β) (n : Nat) :
    g 0 :: (List.range n).map (fun j => g (j + 1)) =
      (List.range (n + 1)).map g := by
  rw [List.range_succ_eq_map]
  simp [List.map_map, Function.comp]

/-- Characterization of the decorator loop when every call raises a
retryable exception: entered at `attempt` with `fuel = m - attempt > 0`,
it makes the remaining `m - attempt` calls, sleeps the capped
exponentially increasing delays, logs one warning per sleep plus the
final error event, and raises the exhausted failure carrying the last
exception as cause. -/
theorem decoratorGo_allfail {α : Type} (fn : String) (f : Nat → CallResult α)
    (e : Nat → String) (retryable : String → Bool)
    (hf : ∀ k, f k = .exn (e k)) (hr : ∀ k, retryable (e k) = true)
    (mI : Int) (m : Nat) (b M : ℚ) :
    ∀ fuel attempt, attempt + fuel = m → attempt < m →
      decoratorGo fn f retryable mI m b M attempt fuel =
        ⟨.exhausted (exhaustedMsg mI (e (m - 1))) (some (e (m - 1))), m,
          (List.range (fuel - 1)).map
            (fun j => min (b * 2 ^ (attempt + j)) M),
          (List.range (fuel - 1)).map
            (fun j => LogEvent.warnRetry (some fn) (attempt + j + 1) mI
              (min (b * 2 ^ (attempt + j)) M) (e (attempt + j))) ++
            [LogEvent.maxRetriesError fn m mI (e (m - 1))]⟩ := by
  intro fuel
  induction fuel with
  | zero => intro attempt hsum hlt; omega
  | succ fl ih =>
    intro attempt hsum hlt
    unfold decoratorGo
    rw [if_pos hlt, hf attempt]
    simp only [hr attempt, if_true]
    by_cases hend : attempt + 1 ≥ m
    · have hfl : fl = 0 := by omega
      subst hfl
      rw [if_pos hend]
      have hatt : attempt = m - 1 := by omega
      rw [hatt, show m - 1 + 1 = m from by omega]
      simp
    · rw [if_neg hend]
      obtain ⟨fl', rfl⟩ : ∃ fl', fl = fl' + 1 := ⟨fl - 1, by omega⟩
      rw [ih (attempt + 1) (by omega) (by omega)]
      simp only [Nat.add_sub_cancel, RunResult.mk.injEq, true_and]
      have harith : ∀ j : Nat, attempt + 1 + j = attempt + (j + 1) :=
        fun j => by omega
      simp only [harith]
      constructor
      · exact range_map_cons (fun j => min (b * 2 ^ (attempt + j)) M) fl'
      · rw [← List.cons_append]
        refine congrArg
          (fun l => l ++ [LogEvent.maxRetriesError fn m mI (e (m - 1))]) ?_
        exact range_map_cons
          (fun j => LogEvent.warnRetry (some fn) (attempt + j + 1) mI
            (min (b * 2 ^ (attempt + j)) M) (e (attempt + j))) fl'

/-- Characterization of the `retry_with_backoff` loop when every call
raises a retryable exception: as the decorator loop, but the delays carry
no `max_delay` cap, the warnings carry no function name, and no error
event precedes the raise. -/
theorem retryWithBackoffGo_allfail {α : Type} (f : Nat → CallResult α)
    (e : Nat → String) (retryable : String → Bool)
    (hf : ∀ k, f k = .exn (e k)) (hr : ∀ k, retryable (e k) = true)
    (mI : Int) (m : Nat) (b : ℚ) :
    ∀ fuel attempt, attempt + fuel = m → attempt < m →
      retryWithBackoffGo f retryable mI m b attempt fuel =
        ⟨.exhausted (exhaustedMsg mI (e (m - 1))) (some (e (m - 1))), m,
          (List.range (fuel - 1)).map (fun j => b * 2 ^ (attempt + j)),
          (List.range (fuel - 1)).map
            (fun j => LogEvent.warnRetry none (attempt + j + 1) mI
              (b * 2 ^ (attempt + j)) (e (attempt + j)))⟩ := by
  intro fuel
  induction fuel with
  | zero => intro attempt hsum hlt; omega
  | succ fl ih =>
    intro attempt hsum hlt
    unfold retryWithBackoffGo
    rw [if_pos hlt, hf attempt]
    simp only [hr attempt, if_true]
    by_cases hend : attempt + 1 ≥ m
    · have hfl : fl = 0 := by omega
      subst hfl
      rw [if_pos hend]
      have hatt : attempt = m - 1 := by omega
      rw [hatt, show m - 1 + 1 = m from by omega]
      simp
    · rw [if_neg hend]
      obtain ⟨fl', rfl⟩ : ∃ fl', fl = fl' + 1 := ⟨fl - 1, by omega⟩
      rw [ih (attempt + 1) (by omega) (by omega)]
      simp only [Nat.add_sub_cancel, RunResult.mk.injEq, true_and]
      have harith : ∀ j : Nat, attempt + 1 + j = attempt + (j + 1) :=
        fun j => by omega
      simp only [harith]
      constructor
      · exact range_map_cons (fun j => b * 2 ^ (attempt + j)) fl'
      · exact range_map_cons
          (fun j => LogEvent.warnRetry none (attempt + j + 1) mI
            (b * 2 ^ (attempt + j)) (e (attempt + j))) fl'

/-- The two run entry points, specialised to an all-retryable-failure
function and a positive retry budget. -/
theorem decoratorRun_allfail {α : Type} (fn : String)
    (f : Nat → CallResult α) (e : Nat → String) (retryable : String → Bool)
    (hf : ∀ k, f k = .exn (e k)) (hr : ∀ k, retryable (e k) = true)
    (m : Nat) (hm : 1 ≤ m) (b M : ℚ) :
    decoratorRun fn f retryable (m : Int) b M =
      ⟨.exhausted (exhaustedMsg (m : Int) (e (m - 1))) (some (e (m - 1))), m,
        (List.range (m - 1)).map (fun j => min (b * 2 ^ j) M),
        (List.range (m - 1)).map
          (fun j => LogEvent.warnRetry (some fn) (j + 1) (m : Int)
            (min (b * 2 ^ j) M) (e j)) ++
          [LogEvent.maxRetriesError fn m (m : Int) (e (m - 1))]⟩ := by
  unfold decoratorRun
  rw [Int.toNat_natCast]
  rw [decoratorGo_allfail fn f e retryable hf hr (m : Int) m b M m 0
    (by omega) (by omega)]
  simp

theorem retryWithBackoffRun_allfail {α : Type} (f : Nat → CallResult α)
    (e : Nat → String) (retryable : String → Bool)
    (hf : ∀ k, f k = .exn (e k)) (hr : ∀ k, retryable (e k) = true)
    (m : Nat) (hm : 1 ≤ m) (b : ℚ) :
    retryWithBackoffRun f retryable (m : Int) b =
      ⟨.exhausted (exhaustedMsg (m : Int) (e (m - 1))) (some (e (m - 1))), m,
        (List.range (m - 1)).map (fun j => b * 2 ^ j),
        (List.range (m - 1)).map
          (fun j => LogEvent.warnRetry none (j + 1) (m : Int) (b * 2 ^ j)
            (e j))⟩ := by
  unfold retryWithBackoffRun
  rw [Int.toNat_natCast]
  rw [retryWithBackoffGo_allfail f e retryable hf hr (m : Int) m b m 0
    (by omega) (by omega)]
  simp

def fetchDataName : String := "fetch_data"

def boomMsg : String := "boom"

def boomExhaustedMsg : String := "Failed after 3 attempts: boom"

/-! ## C8: Backoff delay formula -/

/-- C8 counterexample.  The non-decorator `retry_with_backoff` form does
not cap its delays: with `base_delay = 1` and every call failing, the
delay slept before attempt 9 is `2^7 = 128`, not
`min(base_delay * 2^(9-2), max_delay) = 60` for the utility's documented
default `max_delay = 60` (the function accepts no `max_delay` parameter
at all). -/
theorem backoff_cap_counterexample :
    (RunResult.sleeps (retryWithBackoffRun
        (fun _ => (CallResult.exn boomMsg : CallResult Nat))
        (fun _ => true) ((9 : Nat) : Int) 1))[7]? = some 128 ∧
    ¬((128 : ℚ) = min ((1 : ℚ) * 2 ^ (9 - 2)) 60) := by
  constructor
  · rw [retryWithBackoffRun_allfail
      (fun _ => (CallResult.exn boomMsg : CallResult Nat))
      (fun _ => boomMsg) (fun _ => true) (fun _ => rfl) (fun _ => rfl)
      9 (by decide) 1]
    norm_num [List.getElem?_map, List.getElem?_range]
  · norm_num [min_def]

/-- C8 (amended).  For every wrapper invocation whose calls all fail
retryably and every attempt number `k` with `2 ≤ k ≤ max_retries`, the
delay slept before attempt `k` is `min(base_delay * 2^(k-2), max_delay)`
for the decorator form, while the non-decorator `retry_with_backoff` form
(which takes no `max_delay` parameter) sleeps the uncapped
`base_delay * 2^(k-2)`. -/
theorem backoff_delay_formula {α : Type} (fn : String)
    (f : Nat → CallResult α) (e : Nat → String) (retryable : String → Bool)
    (hf : ∀ k, f k = .exn (e k)) (hr : ∀ k, retryable (e k) = true)
    (m : Nat) (b M : ℚ) (k : Nat) (hk : 2 ≤ k) (hkm : k ≤ m) :
    (RunResult.sleeps (decoratorRun fn f retryable (m : Int) b M))[k - 2]? =
      some (min (b * 2 ^ (k - 2)) M) ∧
    (RunResult.sleeps (retryWithBackoffRun f retryable (m : Int) b))[k - 2]? =
      some (b * 2 ^ (k - 2)) := by
  have hm : 1 ≤ m := by omega
  rw [decoratorRun_allfail fn f e retryable hf hr m hm b M,
    retryWithBackoffRun_allfail f e retryable hf hr m hm b]
  have hk2 : k - 2 < m - 1 := by omega
  constructor <;>
    simp [List.getElem?_map, List.getElem?_range, hk2]

/-- Witness for C8 (amended): with `max_retries = 3`, `base_delay = 1`
and `max_delay = 60`, the delay before attempt 3 is `min(1 * 2, 60)` in
the decorator form and `1 * 2` in the non-decorator form. -/
theorem backoff_delay_formula_witness :
    (RunResult.sleeps (decoratorRun fetchDataName
        (fun _ => (CallResult.exn boomMsg : CallResult Nat))
        (fun _ => true) ((3 : Nat) : Int) 1 60))[3 - 2]? =
      some (min ((1 : ℚ) * 2 ^ (3 - 2)) 60) ∧
    (RunResult.sleeps (retryWithBackoffRun
        (fun _ => (CallResult.exn boomMsg : CallResult Nat))
        (fun _ => true) ((3 : Nat) : Int) 1))[3 - 2]? =
      some ((1 : ℚ) * 2 ^ (3 - 2)) :=
  backoff_delay_formula fetchDataName
    (fun _ => (CallResult.exn boomMsg : CallResult Nat))
    (fun _ => boomMsg) (fun _ => true) (fun _ => rfl) (fun _ => rfl)
    3 1 60 3 (by decide) (by decide)

/-! ## C9: Exhausted-retries behavior -/

/-- C9 counterexample.  The raised `MaxRetriesExceeded` does not
reference the wrapped function's name: for a function named "fetch_data"
failing every call with "boom" under `max_retries = 3`, the raised
failure's message is "Failed after 3 attempts: boom", which does not
contain "fetch_data" (the name appears only in the emitted log
events). -/
theorem retry_exhausted_name_counterexample :
    (RunResult.outcome (decoratorRun fetchDataName
        (fun _ => (CallResult.exn boomMsg : CallResult Nat))
        (fun _ => true) 3 1 60)) =
      .exhausted boomExhaustedMsg (some boomMsg) ∧
    strContainsSub boomExhaustedMsg fetchDataName = false := by
  constructor
  · decide
  · decide

/-- C9 (amended).  For every function failing retryably on every call and
`max_retries ≥ 1`, both retry forms call it exactly `max_retries` times
and raise a retries-exhausted failure whose message references the
attempt count and the last underlying failure, carrying that failure as
its cause; the wrapped function's name appears in the decorator's final
error log event, not in the raised failure; a non-retryable failure
propagates immediately after a single call, with no sleep and no
retry. -/
theorem retry_exhausted_behavior {α : Type} (fn : String)
    (f : Nat → CallResult α) (e : Nat → String) (retryable : String → Bool)
    (m : Nat) (hm : 1 ≤ m) (b M : ℚ) :
    ((∀ k, f k = .exn (e k)) → (∀ k, retryable (e k) = true) →
      RunResult.calls (decoratorRun fn f retryable (m : Int) b M) = m ∧
      RunResult.outcome (decoratorRun fn f retryable (m : Int) b M) =
        .exhausted (exhaustedMsg (m : Int) (e (m - 1)))
          (some (e (m - 1))) ∧
      (RunResult.logs (decoratorRun fn f retryable (m : Int) b M)).getLast? =
        some (LogEvent.maxRetriesError fn m (m : Int) (e (m - 1))) ∧
      RunResult.calls (retryWithBackoffRun f retryable (m : Int) b) = m ∧
      RunResult.outcome (retryWithBackoffRun f retryable (m : Int) b) =
        .exhausted (exhaustedMsg (m : Int) (e (m - 1)))
          (some (e (m - 1)))) ∧
    (∀ e0, f 0 = .exn e0 → retryable e0 = false →
      decoratorRun fn f retryable (m : Int) b M =
        ⟨.raised e0, 1, [], []⟩ ∧
      retryWithBackoffRun f retryable (m : Int) b =
        ⟨.raised e0, 1, [], []⟩) := by
  constructor
  · intro hf hr
    rw [decoratorRun_allfail fn f e retryable hf hr m hm b M,
      retryWithBackoffRun_allfail f e retryable hf hr m hm b]
    refine ⟨rfl, rfl, ?_, rfl, rfl⟩
    simp
  · intro e0 h0 hr0
    have htn : ((m : Int)).toNat = m := Int.toNat_natCast m
    obtain ⟨m', rfl⟩ : ∃ m', m = m' + 1 := ⟨m - 1, by omega⟩
    constructor
    · unfold decoratorRun
      rw [htn]
      unfold decoratorGo
      rw [if_pos (by omega : 0 < m' + 1), h0]
      simp [hr0]
    · unfold retryWithBackoffRun
      rw [htn]
      unfold retryWithBackoffGo
      rw [if_pos (by omega : 0 < m' + 1), h0]
      simp [hr0]

/-- Witness for C9 (amended): instantiated at `max_retries = 3`, an
all-failing call sequence, and separately a non-retryable first
failure. -/
theorem retry_exhausted_behavior_witness :
    (RunResult.calls (decoratorRun fetchDataName
        (fun _ => (CallResult.exn boomMsg : CallResult Nat))
        (fun _ => true) ((3 : Nat) : Int) 1 60) = 3 ∧
      RunResult.outcome (decoratorRun fetchDataName
        (fun _ => (CallResult.exn boomMsg : CallResult Nat))
        (fun _ => true) ((3 : Nat) : Int) 1 60) =
        .exhausted (exhaustedMsg ((3 : Nat) : Int) boomMsg)
          (some boomMsg) ∧
      (RunResult.logs (decoratorRun fetchDataName
        (fun _ => (CallResult.exn boomMsg : CallResult Nat))
        (fun _ => true) ((3 : Nat) : Int) 1 60)).getLast? =
        some (LogEvent.maxRetriesError fetchDataName 3 ((3 : Nat) : Int)
          boomMsg) ∧
      RunResult.calls (retryWithBackoffRun
        (fun _ => (CallResult.exn boomMsg : CallResult Nat))
        (fun _ => true) ((3 : Nat) : Int) 1) = 3 ∧
      RunResult.outcome (retryWithBackoffRun
        (fun _ => (CallResult.exn boomMsg : CallResult Nat))
        (fun _ => true) ((3 : Nat) : Int) 1) =
        .exhausted (exhaustedMsg ((3 : Nat) : Int) boomMsg)
          (some boomMsg)) ∧
    (decoratorRun fetchDataName
        (fun _ => (CallResult.exn boomMsg : CallResult Nat))
        (fun _ => false) ((3 : Nat) : Int) 1 60 =
      ⟨.raised boomMsg, 1, [], []⟩ ∧
      retryWithBackoffRun
        (fun _ => (CallResult.exn boomMsg : CallResult Nat))
        (fun _ => false) ((3 : Nat) : Int) 1 =
      ⟨.raised boomMsg, 1, [], []⟩) :=
  ⟨(retry_exhausted_behavior fetchDataName
      (fun _ => (CallResult.exn boomMsg : CallResult Nat))
      (fun _ => boomMsg) (fun _ => true) 3 (by decide) 1 60).1
      (fun _ => rfl) (fun _ => rfl),
    (retry_exhausted_behavior fetchDataName
      (fun _ => (CallResult.exn boomMsg : CallResult Nat))
      (fun _ => boomMsg) (fun _ => false) 3 (by decide) 1 60).2
      boomMsg rfl rfl⟩

/-! ## C10: Non-positive retry budget -/

/-- C10.  For every `max_retries ≤ 0`, both the decorator wrapper and
`retry_with_backoff` never call the wrapped function: the retry loop body
is never entered, no sleep and no log happens, and the run raises
`MaxRetriesExceeded` with no underlying cause attached. -/
theorem retry_nonpositive_budget {α : Type} (fn : String)
    (f : Nat → CallResult α) (retryable : String → Bool) (mI : Int)
    (hm : mI ≤ 0) (b M : ℚ) :
    decoratorRun fn f retryable mI b M =
      ⟨.exhausted (fallThroughMsg mI) none, 0, [], []⟩ ∧
    retryWithBackoffRun f retryable mI b =
      ⟨.exhausted (fallThroughMsg mI) none, 0, [], []⟩ := by
  have h0 : mI.toNat = 0 := Int.toNat_of_nonpos hm
  constructor
  · unfold decoratorRun
    rw [h0]
    rfl
  · unfold retryWithBackoffRun
    rw [h0]
    rfl

/-- Witness for C10: at `max_retries = -2` both forms make zero calls,
sleep nothing, log nothing, and raise with no cause. -/
theorem retry_nonpositive_budget_witness :
    decoratorRun fetchDataName
        (fun _ => (CallResult.exn boomMsg : CallResult Nat))
        (fun _ => true) (-2) 1 60 =
      ⟨.exhausted (fallThroughMsg (-2)) none, 0, [], []⟩ ∧
    retryWithBackoffRun
        (fun _ => (CallResult.exn boomMsg : CallResult Nat))
        (fun _ => true) (-2) 1 =
      ⟨.exhausted (fallThroughMsg (-2)) none, 0, [], []⟩ :=
  retry_nonpositive_budget fetchDataName
    (fun _ => (CallResult.exn boomMsg : CallResult Nat))
    (fun _ => true) (-2) (by decide) 1 60

end NriNews
